import Mathlib

/-! am2gotify: the alert relay handler, embedded and verified.

The development follows `src/am2gotify.go`.  The request handler `Handle` and
the reconciliation routine `deleteMessage` talk to two collaborators that are
not part of the repository: the Gotify REST client (create / list / delete a
message) and the HTTP response writer.  Both are embedded as explicit effects:

* the sink is a record of three state-passing operations over an arbitrary
  state type, so every theorem quantified over a `Sink` holds whichever calls
  fail;
* every call the handler makes (on the sink, on the response writer, on the
  `pleaseQuit` channel, on the request body) is appended to a trace of
  `Event`s, in program order.

Go `error` values are represented by their `Error()` text, which is all the
handler ever uses (`%v` formatting).
-/

set_option autoImplicit false

namespace Am2gotify

/-! ## Data model -/

/-- Go `map[string]string` (`template.KV`), as an association list whose first
binding of a key is the map entry. -/
abbrev KV := List (String × String)

/-- Go map indexing `m[k]` on a `map[string]string`: the zero value `""` when
the key is absent. -/
def index (m : KV) (k : String) : String :=
  (m.lookup k).getD ""

/-- The dynamic values a decoded JSON `interface{}` can hold. -/
inductive Value where
  | str (s : String)
  | num (n : Int)
  | bool (b : Bool)
  | null
  | composite
  deriving DecidableEq, Repr

/-- One entry of `template.Data.Alerts`; only the fields the handler reads. -/
structure Alert where
  Status : String
  Labels : KV
  Annotations : KV
  Fingerprint : String
  deriving DecidableEq, Repr

/-- The decoded request body `template.Data`; only `Alerts` is read. -/
structure Data where
  Alerts : List Alert
  deriving DecidableEq, Repr

/-- The client library record `models.MessageExternal`: used both as the body
of a create call (where `ID` keeps its zero value) and as an element of a
listing.  `Extras` is Go `map[string]interface{}`.  `ID` is a Go `uint`, 64
bits wide: a natural number below `2^64`. -/
structure MessageExternal where
  ID : Nat
  Title : String
  Message : String
  Priority : Int
  Extras : List (String × Value)
  deriving DecidableEq, Repr

/-- The Go conversion `int64(x)` of a 64-bit `uint`: the value is kept below
`2^63` and wraps to `x - 2^64` from `2^63` up. -/
def int64 (x : Nat) : Int :=
  if x % 2 ^ 64 < 2 ^ 63 then ((x % 2 ^ 64 : Nat) : Int)
  else ((x % 2 ^ 64 : Nat) : Int) - 2 ^ 64

/-- The constant `extraKey`. -/
def extraKey : String := "am2gotify/fp"

/-- The flags the handler reads: `--resolved`, `--exitafter`, and the
application identifier resolved at startup. -/
structure Config where
  resolved : String
  exitAfter : Int
  appId : Int
  deriving DecidableEq, Repr

/-- The three sink operations used by the handler, over an arbitrary sink
state: each returns its outcome (an error text on failure) and the next
state. -/
structure Sink (σ : Type) where
  CreateMessage : MessageExternal → σ → Except String Unit × σ
  GetAppMessages : Int → σ → Except String (List MessageExternal) × σ
  DeleteMessage : Int → σ → Except String Unit × σ

deriving instance DecidableEq for Except

/-- The calls made by the handler, in program order. -/
inductive Event where
  /-- The call `gotifyClient.Message.CreateMessage` with its body and outcome. -/
  | createMessage (body : MessageExternal) (res : Except String Unit)
  /-- The call `gotifyClient.Message.GetAppMessages` with its id and outcome. -/
  | getAppMessages (id : Int) (res : Except String (List MessageExternal))
  /-- The call `gotifyClient.Message.DeleteMessage` with its id and outcome. -/
  | deleteMessage (id : Int) (res : Except String Unit)
  /-- The call `http.Error(w, text, code)`. -/
  | httpError (text : String) (code : Nat)
  /-- The call `w.WriteHeader(code)`. -/
  | writeHeader (code : Nat)
  /-- The send on the channel `pleaseQuit`. -/
  | pleaseQuit
  /-- The deferred call `r.Body.Close()`. -/
  | bodyClose
  deriving DecidableEq, Repr

/-! ## `strconv.Atoi`

The Go standard library function, which is not part of the repository, after
its documentation: "Atoi is equivalent to ParseInt(s, 10, 0), converted to
type int", on a platform whose `int` is 64 bits wide.  `ParseUint` accumulates
in a `uint64`, so its additions are taken modulo `2^64`. -/

/-- The two failure kinds of `strconv`: `ErrSyntax` and `ErrRange`. -/
inductive NumError where
  | errSyn
  | errRange
  deriving DecidableEq, Repr

/-- The width of Go `int` (`strconv.IntSize`). -/
def intSize : Nat := 64

/-- The loop of `ParseUint(s, 10, bitSize)` over the remaining bytes, with
accumulator `n`: a byte outside `'0'..'9'` is a syntax error, and an overflow
of the accumulator, detected as in the library, is a range error. -/
def parseUintLoop (maxVal : Nat) : Nat → List Char → Except NumError Nat
  | n, [] => .ok n
  | n, c :: cs =>
    if '0'.toNat ≤ c.toNat ∧ c.toNat ≤ '9'.toNat then
      let d := c.toNat - '0'.toNat
      if n ≥ (2 ^ 64 - 1) / 10 + 1 then .error .errRange
      else
        let n10 := n * 10 % 2 ^ 64
        let n1 := (n10 + d) % 2 ^ 64
        if n1 < n10 ∨ n1 > maxVal then .error .errRange
        else parseUintLoop maxVal n1 cs
    else .error .errSyn

/-- Go `strconv.ParseUint(s, 10, 0)`. -/
def ParseUint (s : List Char) : Except NumError Nat :=
  if s = [] then .error .errSyn
  else parseUintLoop (2 ^ intSize - 1) 0 s

/-- Go `strconv.ParseInt(s, 10, 0)`: an optional sign, then `ParseUint`, then
the range check against `1 << (bitSize - 1)`.  A range error of `ParseUint`
comes with the value `maxVal`, which fails the range check here as well. -/
def ParseInt (s : List Char) : Except NumError Int :=
  match s with
  | [] => .error .errSyn
  | c :: rest =>
    let neg := c = '-'
    let digits := if c = '+' ∨ c = '-' then rest else s
    match ParseUint digits with
    | .error e => .error e
    | .ok un =>
      let cutoff := 2 ^ (intSize - 1)
      if ¬ neg ∧ un ≥ cutoff then .error .errRange
      else if neg ∧ un > cutoff then .error .errRange
      else .ok (if neg then - (un : Int) else (un : Int))

/-- Go `strconv.Atoi`. -/
def Atoi (s : String) : Except NumError Int :=
  ParseInt s.toList

/-! ## `deleteMessage` -/

/-- The comparison `m.Extras[extraKey] == a.Fingerprint` of an `interface{}`
with a string: true exactly when the entry exists and holds a string equal to
the fingerprint (a missing entry is the nil interface, which equals no
string). -/
def extraEq (v : Option Value) (fp : String) : Bool :=
  match v with
  | some (.str s) => s == fp
  | _ => false

/-- The `for _, m := range messages.Payload.Messages` loop of `deleteMessage`:
the outcome of each delete call is discarded. -/
def deleteLoop {σ : Type} (sink : Sink σ) (a : Alert) :
    List MessageExternal → σ → List Event × σ
  | [], s => ([], s)
  | m :: ms, s =>
    if extraEq (m.Extras.lookup extraKey) a.Fingerprint then
      let r := sink.DeleteMessage (int64 m.ID) s
      let rest := deleteLoop sink a ms r.2
      (Event.deleteMessage (int64 m.ID) r.1 :: rest.1, rest.2)
    else deleteLoop sink a ms s

/-- The function `deleteMessage(w, a)`. -/
def deleteMessage {σ : Type} (cfg : Config) (sink : Sink σ) (a : Alert) (s : σ) :
    List Event × σ :=
  let r := sink.GetAppMessages cfg.appId s
  match r.1 with
  | .error err =>
    ([Event.getAppMessages cfg.appId r.1,
      Event.httpError ("GetAppMessages failed: " ++ err) 500], r.2)
  | .ok messages =>
    let rest := deleteLoop sink a messages r.2
    (Event.getAppMessages cfg.appId r.1 :: rest.1, rest.2)

/-! ## `Handle` -/

/-- What the head of the loop body (lines 57-72) decides for one alert:
`continue` without effect, `deleteMessage` then `continue`, or fall through to
the create call with the derived level. -/
inductive Branch where
  | skip
  | reconcile
  | send (level : String)
  deriving DecidableEq, Repr

/-- Lines 57-72 of `Handle`: the status / policy dispatch and the local
variable that holds the level. -/
def branch (resolved : String) (a : Alert) : Branch :=
  if a.Status = "resolved" then
    if resolved = "ignore" then .skip
    else if resolved = "delete" then .reconcile
    else .send "resolved"
  else
    let level := index a.Labels "severity"
    if level = "" then .send "warning" else .send level

/-- Lines 73-87 of `Handle`: the body of the create call. -/
def outbound (a : Alert) : MessageExternal :=
  let instance0 := index a.Labels "instance"
  let instance1 := if instance0 ≠ "" then instance0 ++ ": " else instance0
  let priority : Int :=
    match Atoi (index a.Labels "p") with
    | .ok pp => pp
    | .error _ => 5
  { ID := 0
    Title := "[" ++ a.Status ++ "] " ++ index a.Annotations "summary"
    Message := instance1 ++ index a.Annotations "description"
    Priority := priority
    Extras := [(extraKey, Value.str a.Fingerprint)] }

/-- One iteration of the `for _, a := range m.Alerts` loop: the events it
produces, the next value of `lastErr` and the next sink state. -/
def loopBody {σ : Type} (cfg : Config) (sink : Sink σ) (a : Alert)
    (lastErr : Option String) (s : σ) : List Event × Option String × σ :=
  match branch cfg.resolved a with
  | .skip => ([], lastErr, s)
  | .reconcile =>
    let r := deleteMessage cfg sink a s
    (r.1, lastErr, r.2)
  | .send _ =>
    let r := sink.CreateMessage (outbound a) s
    match r.1 with
    | .error err => ([Event.createMessage (outbound a) r.1], some err, r.2)
    | .ok _ => ([Event.createMessage (outbound a) r.1], lastErr, r.2)

/-- The `for _, a := range m.Alerts` loop of `Handle`. -/
def alertLoop {σ : Type} (cfg : Config) (sink : Sink σ) :
    List Alert → Option String → σ → List Event × Option String × σ
  | [], lastErr, s => ([], lastErr, s)
  | a :: as, lastErr, s =>
    let r := loopBody cfg sink a lastErr s
    let rest := alertLoop cfg sink as r.2.1 r.2.2
    (r.1 ++ rest.1, rest.2.1, rest.2.2)

/-- The deferred calls of `Handle`, in the order they run on return: the
closure that sends on `pleaseQuit` (registered last, only when `exitAfter` is
non-zero), then `r.Body.Close()`. -/
def deferred (cfg : Config) : List Event :=
  (if cfg.exitAfter ≠ 0 then [Event.pleaseQuit] else []) ++ [Event.bodyClose]

/-- The function `Handle(w, r)`.  The JSON decoder belongs to the standard
library; it is a parameter, applied to the request body. -/
def Handle {σ : Type} (cfg : Config) (sink : Sink σ)
    (decode : String → Except String Data) (body : String) (s : σ) :
    List Event × σ :=
  match decode body with
  | .error err =>
    ([Event.httpError ("error decoding AM hook message: " ++ err) 400] ++ deferred cfg, s)
  | .ok m =>
    let r := alertLoop cfg sink m.Alerts none s
    match r.2.1 with
    | some lastErr =>
      (r.1 ++ [Event.httpError ("error sending Gotify message: " ++ lastErr) 500]
        ++ deferred cfg, r.2.2)
    | none => (r.1 ++ [Event.writeHeader 204] ++ deferred cfg, r.2.2)

/-! ## Observations on a trace -/

/-- The identifiers carried by the delete-message calls of a trace, in order. -/
def deleteIds (es : List Event) : List Int :=
  es.filterMap fun e =>
    match e with
    | Event.deleteMessage id _ => some id
    | _ => none

/-- The bodies of the create-message calls of a trace, in order. -/
def createBodies (es : List Event) : List MessageExternal :=
  es.filterMap fun e =>
    match e with
    | Event.createMessage b _ => some b
    | _ => none

/-- The error texts of the failed create-message calls of a trace, in order. -/
def createFailures (es : List Event) : List String :=
  es.filterMap fun e =>
    match e with
    | Event.createMessage _ (.error err) => some err
    | _ => none

/-- Whether an event is a call to the sink. -/
def isSinkCall : Event → Bool
  | Event.createMessage _ _ => true
  | Event.getAppMessages _ _ => true
  | Event.deleteMessage _ _ => true
  | _ => false

/-- Whether an event writes to the response (`http.Error` or `WriteHeader`). -/
def isWrite : Event → Bool
  | Event.httpError _ _ => true
  | Event.writeHeader _ => true
  | _ => false

/-- Whether an event is an error response (`http.Error`). -/
def isErrorWrite : Event → Bool
  | Event.httpError _ _ => true
  | _ => false

/-! ## The properties, in the words of the specification -/

/-- A sink message carries fingerprint `F`: its extras contain the key
`am2gotify/fp` with a value equal to `F`. -/
def carriesFp (F : String) (m : MessageExternal) : Bool :=
  decide (m.Extras.lookup "am2gotify/fp" = some (Value.str F))

/-- An alert reaches the create-message call: it is not resolved, or it is
resolved and the policy is `notify`. -/
def isSent (policy : String) (a : Alert) : Bool :=
  decide (a.Status ≠ "resolved" ∨ policy = "notify")

/-- The value of a string of decimal digits. -/
def digitsValue (ds : List Char) : Nat :=
  ds.foldl (fun n c => 10 * n + (c.toNat - 48)) 0

/-- One or more decimal digits. -/
def isDigits (ds : List Char) : Bool :=
  decide (ds ≠ []) && ds.all Char.isDigit

/-- The integer a text denotes when it is a valid integer: an optional sign
`+` or `-` followed by one or more decimal digits. -/
def denotedInt (t : String) : Option Int :=
  match t.toList with
  | [] => none
  | c :: ds =>
    if c = '-' then (if isDigits ds then some (- (digitsValue ds : Int)) else none)
    else if c = '+' then (if isDigits ds then some (digitsValue ds : Int) else none)
    else if isDigits (c :: ds) then some (digitsValue (c :: ds) : Int) else none

/-- The title of the created message: `[<status>] <summary annotation>`, an
absent annotation contributing the empty string. -/
def specTitle (a : Alert) : String :=
  "[" ++ a.Status ++ "] " ++ (a.Annotations.lookup "summary").getD ""

/-- The body of the created message as claimed: the instance label followed by
`: ` and the description annotation when the instance label is present, just
the description annotation otherwise. -/
def claimedBody (a : Alert) : String :=
  match a.Labels.lookup "instance" with
  | some i => i ++ ": " ++ (a.Annotations.lookup "description").getD ""
  | none => (a.Annotations.lookup "description").getD ""

/-- The body of the created message, amended: the instance label followed by
`: ` and the description annotation when the instance label is present and
not empty, just the description annotation otherwise. -/
def amendedBody (a : Alert) : String :=
  match a.Labels.lookup "instance" with
  | some i =>
    if i = "" then (a.Annotations.lookup "description").getD ""
    else i ++ ": " ++ (a.Annotations.lookup "description").getD ""
  | none => (a.Annotations.lookup "description").getD ""

/-- The priority as claimed: 5 when the `p` label is absent or is not a valid
integer, the integer it denotes otherwise. -/
def claimedPriority (a : Alert) : Int :=
  match a.Labels.lookup "p" with
  | none => 5
  | some t => (denotedInt t).getD 5

/-- The priority, amended: the integer the `p` label denotes when it is a
valid integer that a 64-bit `int` holds, 5 in every other case. -/
def amendedPriority (a : Alert) : Int :=
  match a.Labels.lookup "p" with
  | none => 5
  | some t =>
    match denotedInt t with
    | none => 5
    | some v => if - 2 ^ 63 ≤ v ∧ v < 2 ^ 63 then v else 5

/-- The level as claimed for a firing alert: `warning` when the `severity`
label is absent, the value of the label whenever it is present. -/
def claimedLevel (a : Alert) : String :=
  match a.Labels.lookup "severity" with
  | none => "warning"
  | some v => v

/-- The level of a firing alert, amended: the value of the `severity` label
when it is present and not empty, `warning` otherwise. -/
def amendedLevel (a : Alert) : String :=
  match a.Labels.lookup "severity" with
  | none => "warning"
  | some v => if v = "" then "warning" else v

/-- One delete-message call per identifier, in order, each applied to the
sink whatever the earlier calls returned: the events and the final sink
state. -/
def issueDeletes {σ : Type} (sink : Sink σ) : List Int → σ → List Event × σ
  | [], s => ([], s)
  | id :: ids, s =>
    ((Event.deleteMessage id (sink.DeleteMessage id s).1 ::
        (issueDeletes sink ids (sink.DeleteMessage id s).2).1),
      (issueDeletes sink ids (sink.DeleteMessage id s).2).2)

/-- The response as the Go `net/http` response writer, which is not part of
the repository, builds it: the status once the header is written, and the
body. -/
structure Response where
  status : Option Nat
  body : String
  deriving DecidableEq, Repr

/-- The call `w.WriteHeader(code)`: the first call fixes the status, a later
one is dropped. -/
def Response.writeHeader (r : Response) (code : Nat) : Response :=
  match r.status with
  | some _ => r
  | none => { r with status := some code }

/-- The call `w.Write(text)`: writes the header with status 200 when none is
written yet, and appends to the body unless the status allows none (1xx, 204,
304). -/
def Response.write (r : Response) (text : String) : Response :=
  let r1 := r.writeHeader 200
  match r1.status with
  | some code =>
    if (100 ≤ code ∧ code ≤ 199) ∨ code = 204 ∨ code = 304 then r1
    else { r1 with body := r1.body ++ text }
  | none => r1

/-- The effect of one event on the response: `http.Error(w, text, code)` is
`w.WriteHeader(code)` followed by the text and a newline written to the body;
the other events leave the response as it is. -/
def respond (r : Response) : Event → Response
  | Event.httpError text code => Response.write (r.writeHeader code) (text ++ "\n")
  | Event.writeHeader code => r.writeHeader code
  | _ => r

/-- The response a trace leaves behind. -/
def response (es : List Event) : Response :=
  es.foldl respond { status := none, body := "" }

/-- The response of `Handle` as C2 words it: status 500 and a text naming the
last create-message failure when some create-message call failed, status 204
and no body otherwise. -/
def claimedResponse (failures : List String) : Response :=
  match failures.getLast? with
  | some err => { status := some 500, body := "error sending Gotify message: " ++ err ++ "\n" }
  | none => { status := some 204, body := "" }

/-- Whether an event is a list-messages call that failed. -/
def isFailedListing : Event → Bool
  | Event.getAppMessages _ (.error _) => true
  | _ => false

/-- The final response of `Handle` after the loop, as the specification words
it: status 500 with a text naming the last create-message failure when there
is one, status 204 and no body otherwise. -/
def finalResponse (failures : List String) : Event :=
  match failures.getLast? with
  | some err => Event.httpError ("error sending Gotify message: " ++ err) 500
  | none => Event.writeHeader 204

/-! ## Concrete sinks and inputs -/

/-- A sink on which every call succeeds and the listing is empty. -/
def okSink : Sink Unit where
  CreateMessage := fun _ s => (.ok (), s)
  GetAppMessages := fun _ s => (.ok [], s)
  DeleteMessage := fun _ s => (.ok (), s)

/-- A sink on which every call fails with the text `boom`. -/
def failSink : Sink Unit where
  CreateMessage := fun _ s => (.error "boom", s)
  GetAppMessages := fun _ s => (.error "boom", s)
  DeleteMessage := fun _ s => (.error "boom", s)

/-- A sink that holds its messages in a list: a create call appends the message
under a fresh identifier, a listing returns every message, and a delete call
removes the message whose identifier is the number it is given. -/
def storeSink : Sink (List MessageExternal) where
  CreateMessage := fun b s =>
    (.ok (), s ++ [{ b with ID := (s.map (fun m => m.ID)).foldl max 0 + 1 }])
  GetAppMessages := fun _ s => (.ok s, s)
  DeleteMessage := fun id s => (.ok (), s.filter (fun m => decide ((m.ID : Int) ≠ id)))

/-- A sink of which the n-th call (counted from zero over all three
operations) fails with the text `script n` when there is one; the listing is
`listing`. -/
def scriptSink (script : Nat → Option String) (listing : List MessageExternal) : Sink Nat where
  CreateMessage := fun _ n =>
    (match script n with
      | some err => .error err
      | none => .ok (), n + 1)
  GetAppMessages := fun _ n =>
    (match script n with
      | some err => .error err
      | none => .ok listing, n + 1)
  DeleteMessage := fun _ n =>
    (match script n with
      | some err => .error err
      | none => .ok (), n + 1)

/-- A script that fails the calls number 0 and 1, with distinct texts. -/
def firstTwoFail : Nat → Option String :=
  fun n => if n = 0 then some "first" else if n = 1 then some "second" else none

/-- A decoder that accepts exactly the body `ok` and yields the given batch. -/
def decodeTo (alerts : List Alert) : String → Except String Data :=
  fun body => if body = "ok" then .ok { Alerts := alerts } else .error "unexpected EOF"

/-- The first alert of the two-alert batch of the specification. -/
def diskFull : Alert :=
  { Status := "firing", Labels := [("severity", "critical")],
    Annotations := [("summary", "disk full")], Fingerprint := "" }

/-- The second alert of the two-alert batch of the specification. -/
def resolvedAbc : Alert :=
  { Status := "resolved", Labels := [], Annotations := [], Fingerprint := "abc" }

/-- A sink message with the given identifier and extras. -/
def sinkMsg (id : Nat) (extras : List (String × Value)) : MessageExternal :=
  { ID := id, Title := "", Message := "", Priority := 0, Extras := extras }

/-- Four stored messages: two carry the fingerprint `abc`, one has no extras,
one carries another fingerprint. -/
def storedFour : List MessageExternal :=
  [sinkMsg 1 [("am2gotify/fp", .str "abc")], sinkMsg 2 [],
   sinkMsg 3 [("am2gotify/fp", .str "abc")], sinkMsg 4 [("am2gotify/fp", .str "x")]]

/-- Four listed messages: two carry the empty fingerprint, one has no extras,
one holds a number under the key. -/
def listedFour : List MessageExternal :=
  [sinkMsg 1 [("am2gotify/fp", .str "")], sinkMsg 2 [],
   sinkMsg 3 [("am2gotify/fp", .num 3)], sinkMsg 4 [("am2gotify/fp", .str "")]]

/-- One stored message whose identifier is `2^63` and which carries the
fingerprint `abc`. -/
def storedHigh : List MessageExternal :=
  [sinkMsg 9223372036854775808 [("am2gotify/fp", .str "abc")]]

/-- A resolved alert whose fingerprint is empty. -/
def resolvedEmpty : Alert :=
  { Status := "resolved", Labels := [], Annotations := [], Fingerprint := "" }

/-- A firing alert whose `instance` label is present and empty. -/
def emptyInstance : Alert :=
  { Status := "firing", Labels := [("instance", "")],
    Annotations := [("description", "d")], Fingerprint := "f" }

/-- A firing alert whose `p` label is a decimal integer one above the largest
64-bit `int`. -/
def bigPriority : Alert :=
  { Status := "firing", Labels := [("p", "9223372036854775808")],
    Annotations := [], Fingerprint := "f" }

/-- A batch of firing alerts with the `p` labels `-3`, `x1`, `+007`, none, and
one above the largest 64-bit `int`. -/
def priorityBatch : List Alert :=
  [{ Status := "firing", Labels := [("p", "-3")], Annotations := [], Fingerprint := "a" },
   { Status := "firing", Labels := [("p", "x1")], Annotations := [], Fingerprint := "b" },
   { Status := "firing", Labels := [("p", "+007")], Annotations := [], Fingerprint := "c" },
   diskFull, bigPriority]

/-- A firing alert whose `severity` label is present and empty. -/
def emptySeverity : Alert :=
  { Status := "firing", Labels := [("severity", "")],
    Annotations := [], Fingerprint := "f" }

/-! ## `strconv.Atoi` computes the denoted integer -/

theorem isDigit_iff (c : Char) : c.isDigit = true ↔ 48 ≤ c.toNat ∧ c.toNat ≤ 57 := by
  unfold Char.isDigit Char.toNat
  simp [UInt32.le_def, UInt32.toNat, BitVec.le_def]

theorem le_foldl_digits (ds : List Char) (n : Nat) :
    n ≤ ds.foldl (fun n c => 10 * n + (c.toNat - 48)) n := by
  induction ds generalizing n with
  | nil => simp
  | cons c cs ih =>
    simp only [List.foldl_cons]
    exact le_trans (by omega) (ih _)

theorem parseUintLoop_ok (cs : List Char) (n v : Nat) (hn : n < 2 ^ 64) :
    parseUintLoop (2 ^ 64 - 1) n cs = .ok v ↔
      (cs.all Char.isDigit = true ∧
        cs.foldl (fun n c => 10 * n + (c.toNat - 48)) n = v ∧ v < 2 ^ 64) := by
  induction cs generalizing n with
  | nil =>
    simp only [parseUintLoop, List.all_nil, List.foldl_nil, true_and, Except.ok.injEq]
    constructor
    · intro h; subst h; exact ⟨rfl, hn⟩
    · intro h; exact h.1
  | cons c cs ih =>
    have h0 : '0'.toNat = 48 := by decide
    have h9 : '9'.toNat = 57 := by decide
    simp only [parseUintLoop, h0, h9, List.all_cons, List.foldl_cons, Bool.and_eq_true,
      isDigit_iff]
    by_cases hd : 48 ≤ c.toNat ∧ c.toNat ≤ 57
    · rw [if_pos hd]
      have hmono := le_foldl_digits cs (10 * n + (c.toNat - 48))
      by_cases hc : n ≥ (2 ^ 64 - 1) / 10 + 1
      · rw [if_pos hc]
        constructor
        · intro h; cases h
        · rintro ⟨_, h, hv⟩
          exfalso
          omega
      · rw [if_neg hc]
        have hn10 : n * 10 % 2 ^ 64 = n * 10 := Nat.mod_eq_of_lt (by omega)
        rw [hn10]
        by_cases hw : n * 10 + (c.toNat - 48) < 2 ^ 64
        · have hn1 : (n * 10 + (c.toNat - 48)) % 2 ^ 64 = n * 10 + (c.toNat - 48) :=
            Nat.mod_eq_of_lt hw
          rw [hn1, if_neg (by omega), ih _ hw]
          have he : n * 10 + (c.toNat - 48) = 10 * n + (c.toNat - 48) := by omega
          rw [he]
          constructor
          · rintro ⟨h1, h2⟩; exact ⟨⟨hd, h1⟩, h2⟩
          · rintro ⟨⟨_, h1⟩, h2⟩; exact ⟨h1, h2⟩
        · have hn1 : (n * 10 + (c.toNat - 48)) % 2 ^ 64 < n * 10 := by omega
          rw [if_pos (Or.inl hn1)]
          constructor
          · intro h; cases h
          · rintro ⟨_, h, hv⟩
            exfalso
            omega
    · rw [if_neg hd]
      constructor
      · intro h; cases h
      · rintro ⟨⟨h, _⟩, _⟩
        exact absurd h hd

theorem ParseUint_ok (ds : List Char) (v : Nat) :
    ParseUint ds = .ok v ↔ (isDigits ds = true ∧ digitsValue ds = v ∧ v < 2 ^ 64) := by
  unfold ParseUint isDigits digitsValue
  by_cases he : ds = []
  · subst he
    simp
  · have hsz : 2 ^ intSize - 1 = 2 ^ 64 - 1 := by decide
    rw [if_neg he, hsz, parseUintLoop_ok ds 0 v (by decide)]
    simp [he]

theorem ParseUint_error (ds : List Char) (e : NumError) (h : ParseUint ds = .error e) :
    isDigits ds = false ∨ 2 ^ 64 ≤ digitsValue ds := by
  by_cases hd : isDigits ds = true
  · right
    by_contra hlt
    have := (ParseUint_ok ds (digitsValue ds)).2 ⟨hd, rfl, by omega⟩
    rw [h] at this
    cases this
  · left
    simpa using hd

theorem ParseInt_ok (cs : List Char) (v : Int) :
    ParseInt cs = .ok v ↔
      (denotedInt (String.mk cs) = some v ∧ - 2 ^ 63 ≤ v ∧ v < 2 ^ 63) := by
  have hsz : 2 ^ (intSize - 1) = 2 ^ 63 := by decide
  unfold ParseInt denotedInt
  cases cs with
  | nil => simp
  | cons c rest =>
    simp only [String.toList, hsz]
    by_cases hm : c = '-'
    · subst hm
      simp only [if_true, or_true, not_true_eq_false, false_and, if_false, true_and]
      cases hp : ParseUint rest with
      | error e =>
        simp only
        rcases ParseUint_error rest e hp with hd | hbig
        · simp [hd]
        · constructor
          · intro h; cases h
          · rintro ⟨h, h1, h2⟩
            split at h
            · cases h
              omega
            · cases h
      | ok un =>
        obtain ⟨hd, hval, hlt⟩ := (ParseUint_ok rest un).1 hp
        simp only [hd, if_true, Option.some.injEq]
        by_cases hr : un > 2 ^ 63
        · rw [if_pos hr]
          constructor
          · intro h; cases h
          · rintro ⟨h, h1, h2⟩
            omega
        · rw [if_neg hr]
          simp only [Except.ok.injEq]
          constructor
          · intro h
            subst h
            exact ⟨by rw [hval], by omega, by omega⟩
          · rintro ⟨h, _⟩
            rw [← h, hval]
    · by_cases hpl : c = '+'
      · subst hpl
        simp only [hm, if_false, true_or, if_true, not_false_eq_true, true_and, false_and]
        cases hp : ParseUint rest with
        | error e =>
          simp only
          rcases ParseUint_error rest e hp with hd | hbig
          · simp [hd]
          · constructor
            · intro h; cases h
            · rintro ⟨h, h1, h2⟩
              split at h
              · cases h
                omega
              · cases h
        | ok un =>
          obtain ⟨hd, hval, hlt⟩ := (ParseUint_ok rest un).1 hp
          simp only [hd, if_true, Option.some.injEq]
          by_cases hr : un ≥ 2 ^ 63
          · rw [if_pos hr]
            constructor
            · intro h; cases h
            · rintro ⟨h, h1, h2⟩
              omega
          · rw [if_neg hr]
            simp only [Except.ok.injEq]
            constructor
            · intro h
              subst h
              exact ⟨by rw [hval], by omega, by omega⟩
            · rintro ⟨h, _⟩
              rw [← h, hval]
      · simp only [hm, hpl, if_false, or_self, not_false_eq_true, true_and, false_and]
        cases hp : ParseUint (c :: rest) with
        | error e =>
          simp only
          rcases ParseUint_error (c :: rest) e hp with hd | hbig
          · simp [hd]
          · constructor
            · intro h; cases h
            · rintro ⟨h, h1, h2⟩
              split at h
              · cases h
                omega
              · cases h
        | ok un =>
          obtain ⟨hd, hval, hlt⟩ := (ParseUint_ok (c :: rest) un).1 hp
          simp only [hd, if_true, Option.some.injEq]
          by_cases hr : un ≥ 2 ^ 63
          · rw [if_pos hr]
            constructor
            · intro h; cases h
            · rintro ⟨h, h1, h2⟩
              omega
          · rw [if_neg hr]
            simp only [Except.ok.injEq]
            constructor
            · intro h
              subst h
              exact ⟨by rw [hval], by omega, by omega⟩
            · rintro ⟨h, _⟩
              rw [← h, hval]

/-- `Atoi` succeeds exactly on the valid integers that a 64-bit `int` holds,
and returns the integer denoted. -/
theorem Atoi_ok (t : String) (v : Int) :
    Atoi t = .ok v ↔ (denotedInt t = some v ∧ - 2 ^ 63 ≤ v ∧ v < 2 ^ 63) := by
  unfold Atoi
  rw [ParseInt_ok]
  rfl

/-! ## Reconciliation: `deleteMessage` -/

theorem extraEq_eq_carriesFp (m : MessageExternal) (F : String) :
    extraEq (m.Extras.lookup extraKey) F = carriesFp F m := by
  unfold extraEq carriesFp extraKey
  cases h : List.lookup "am2gotify/fp" m.Extras with
  | none => simp
  | some v => cases v <;> simp [beq_eq_decide]

theorem int64_of_lt (x : Nat) (h : x < 2 ^ 63) : int64 x = (x : Int) := by
  unfold int64
  have h1 : x % 2 ^ 64 = x := Nat.mod_eq_of_lt (by omega)
  rw [h1, if_pos h]

theorem deleteIds_cons_delete (id : Int) (r : Except String Unit) (es : List Event) :
    deleteIds (Event.deleteMessage id r :: es) = id :: deleteIds es := by
  simp [deleteIds]

theorem deleteLoop_eq_issueDeletes {σ : Type} (sink : Sink σ) (a : Alert)
    (ms : List MessageExternal) (s : σ) :
    deleteLoop sink a ms s =
      issueDeletes sink ((ms.filter (carriesFp a.Fingerprint)).map (fun m => int64 m.ID)) s := by
  induction ms generalizing s with
  | nil => rfl
  | cons m ms ih =>
    unfold deleteLoop
    rw [extraEq_eq_carriesFp]
    by_cases hm : carriesFp a.Fingerprint m = true
    · simp only [hm, if_true, List.filter_cons_of_pos, List.map_cons, issueDeletes]
      rw [ih]
    · simp only [hm, if_false, Bool.false_eq_true]
      rw [ih, List.filter_cons_of_neg hm]

theorem deleteIds_issueDeletes {σ : Type} (sink : Sink σ) (ids : List Int) (s : σ) :
    deleteIds (issueDeletes sink ids s).1 = ids := by
  induction ids generalizing s with
  | nil => rfl
  | cons id ids ih =>
    simp only [issueDeletes]
    rw [deleteIds_cons_delete, ih]

theorem deleteIds_deleteLoop {σ : Type} (sink : Sink σ) (a : Alert)
    (ms : List MessageExternal) (s : σ) :
    deleteIds (deleteLoop sink a ms s).1 =
      (ms.filter (carriesFp a.Fingerprint)).map (fun m => int64 m.ID) := by
  rw [deleteLoop_eq_issueDeletes, deleteIds_issueDeletes]

theorem deleteLoop_events {σ : Type} (sink : Sink σ) (a : Alert)
    (ms : List MessageExternal) (s : σ) :
    ∀ e ∈ (deleteLoop sink a ms s).1, ∃ id r, e = Event.deleteMessage id r := by
  induction ms generalizing s with
  | nil => simp [deleteLoop]
  | cons m ms ih =>
    unfold deleteLoop
    split
    · intro e he
      simp only [List.mem_cons] at he
      rcases he with he | he
      · exact ⟨_, _, he⟩
      · exact ih _ e he
    · exact ih s

theorem deleteMessage_ok {σ : Type} (cfg : Config) (sink : Sink σ) (a : Alert) (s : σ)
    (msgs : List MessageExternal)
    (h : (sink.GetAppMessages cfg.appId s).1 = .ok msgs) :
    deleteMessage cfg sink a s =
      (Event.getAppMessages cfg.appId (.ok msgs) ::
        (deleteLoop sink a msgs (sink.GetAppMessages cfg.appId s).2).1,
       (deleteLoop sink a msgs (sink.GetAppMessages cfg.appId s).2).2) := by
  unfold deleteMessage
  simp only [h]

theorem deleteMessage_error {σ : Type} (cfg : Config) (sink : Sink σ) (a : Alert) (s : σ)
    (err : String)
    (h : (sink.GetAppMessages cfg.appId s).1 = .error err) :
    deleteMessage cfg sink a s =
      ([Event.getAppMessages cfg.appId (.error err),
        Event.httpError ("GetAppMessages failed: " ++ err) 500],
       (sink.GetAppMessages cfg.appId s).2) := by
  unfold deleteMessage
  simp only [h]

theorem view_issueDeletes {σ : Type} (sink : Sink σ) (view : σ → List MessageExternal)
    (hdel : ∀ id t, view (sink.DeleteMessage id t).2 =
      (view t).filter (fun m => decide ((m.ID : Int) ≠ id)))
    (ids : List Int) (s : σ) :
    view (issueDeletes sink ids s).2 =
      (view s).filter (fun m => decide ((m.ID : Int) ∉ ids)) := by
  induction ids generalizing s with
  | nil => simp [issueDeletes]
  | cons id ids ih =>
    simp only [issueDeletes]
    rw [ih, hdel, List.filter_filter]
    congr 1
    funext x
    simp [Bool.and_comm]

/-- C1, as stated, fails: for a listed message whose identifier is `2^64 - 1`
and whose extras carry the fingerprint, the delete call carries `-1`, which is
not that message's identifier. -/
theorem c1_counterexample :
    (storeSink.GetAppMessages 1
        [sinkMsg 18446744073709551615 [("am2gotify/fp", .str "abc")]]).1 =
      .ok [sinkMsg 18446744073709551615 [("am2gotify/fp", .str "abc")]]
    ∧ deleteIds (deleteMessage ⟨"delete", 0, 1⟩ storeSink resolvedAbc
        [sinkMsg 18446744073709551615 [("am2gotify/fp", .str "abc")]]).1 = [-1]
    ∧ deleteIds (deleteMessage ⟨"delete", 0, 1⟩ storeSink resolvedAbc
        [sinkMsg 18446744073709551615 [("am2gotify/fp", .str "abc")]]).1 ≠
      [((sinkMsg 18446744073709551615 [("am2gotify/fp", .str "abc")]).ID : Int)] := by
  decide

/-- C1, amended: when the listing succeeds with `msgs`, `deleteMessage` for an
alert with fingerprint `F` makes, after the listing, exactly one delete-message
call on the sink per message of `msgs` whose extras map `am2gotify/fp` to `F`,
in the order listed and whatever the earlier delete calls returned, each
carrying `int64` of that message's identifier, which is the identifier itself
whenever it is below `2^63`; no other message is deleted, in particular none
whose extras lack the key, even when `F` is empty. -/
theorem c1_deleteMessage_deletes_exactly_the_matches {σ : Type} (cfg : Config)
    (sink : Sink σ) (a : Alert) (s : σ) (msgs : List MessageExternal)
    (hlist : (sink.GetAppMessages cfg.appId s).1 = .ok msgs) :
    deleteMessage cfg sink a s =
        (Event.getAppMessages cfg.appId (.ok msgs) ::
          (issueDeletes sink
            ((msgs.filter (carriesFp a.Fingerprint)).map (fun m => int64 m.ID))
            (sink.GetAppMessages cfg.appId s).2).1,
         (issueDeletes sink
            ((msgs.filter (carriesFp a.Fingerprint)).map (fun m => int64 m.ID))
            (sink.GetAppMessages cfg.appId s).2).2)
      ∧ deleteIds (deleteMessage cfg sink a s).1 =
          (msgs.filter (carriesFp a.Fingerprint)).map (fun m => int64 m.ID)
      ∧ (∀ m : MessageExternal, m.ID < 2 ^ 63 → int64 m.ID = (m.ID : Int))
      ∧ (∀ m, m.Extras.lookup "am2gotify/fp" = none → carriesFp a.Fingerprint m = false)
      ∧ ((∀ m ∈ msgs, m.Extras.lookup "am2gotify/fp" = none) →
          deleteIds (deleteMessage cfg sink a s).1 = []) := by
  have hrun := deleteMessage_ok cfg sink a s msgs hlist
  rw [deleteLoop_eq_issueDeletes] at hrun
  have hids : deleteIds (deleteMessage cfg sink a s).1 =
      (msgs.filter (carriesFp a.Fingerprint)).map (fun m => int64 m.ID) := by
    rw [hrun]
    simp only [deleteIds, List.filterMap_cons]
    exact deleteIds_issueDeletes sink _ _
  have hlack : ∀ m : MessageExternal, m.Extras.lookup "am2gotify/fp" = none →
      carriesFp a.Fingerprint m = false := by
    intro m hm
    simp [carriesFp, hm]
  refine ⟨hrun, hids, fun m hm => int64_of_lt m.ID hm, hlack, ?_⟩
  intro hall
  rw [hids, List.map_eq_nil_iff, List.filter_eq_nil_iff]
  intro m hm
  simp [hlack m (hall m hm)]

/-- The C1 instance: an alert with the empty fingerprint against a listing of
four messages, of which the first and the last carry the empty fingerprint;
both are deleted and removed from the sink. -/
theorem c1_witness :
    (storeSink.GetAppMessages 1 listedFour).1 = .ok listedFour
    ∧ deleteMessage ⟨"delete", 0, 1⟩ storeSink resolvedEmpty listedFour =
      ([Event.getAppMessages 1 (.ok listedFour), Event.deleteMessage 1 (.ok ()),
        Event.deleteMessage 4 (.ok ())],
       [sinkMsg 2 [], sinkMsg 3 [("am2gotify/fp", .num 3)]]) :=
  ⟨rfl, (c1_deleteMessage_deletes_exactly_the_matches ⟨"delete", 0, 1⟩ storeSink
      resolvedEmpty listedFour listedFour rfl).1.trans (by decide)⟩

/-- C7, as stated, fails: on `storeSink`, whose listing succeeds and whose
delete call removes the message it names, with one stored message of
identifier `2^63` carrying the fingerprint, the first run calls delete with
`-2^63`, which names no message, and the second run issues the same delete
call again. -/
theorem c7_counterexample :
    (∀ t : List MessageExternal, (storeSink.GetAppMessages 1 t).1 = .ok t ∧
      (storeSink.GetAppMessages 1 t).2 = t)
    ∧ (∀ (id : Int) (t : List MessageExternal), (storeSink.DeleteMessage id t).2 =
        t.filter (fun m => decide ((m.ID : Int) ≠ id)))
    ∧ deleteIds (deleteMessage ⟨"delete", 0, 1⟩ storeSink resolvedAbc storedHigh).1 =
        [-9223372036854775808]
    ∧ deleteIds (deleteMessage ⟨"delete", 0, 1⟩ storeSink resolvedAbc
        (deleteMessage ⟨"delete", 0, 1⟩ storeSink resolvedAbc storedHigh).2).1 =
        [-9223372036854775808]
    ∧ deleteIds (deleteMessage ⟨"delete", 0, 1⟩ storeSink resolvedAbc
        (deleteMessage ⟨"delete", 0, 1⟩ storeSink resolvedAbc storedHigh).2).1 ≠ [] :=
  ⟨fun _ => ⟨rfl, rfl⟩, fun _ _ => rfl, by decide, by decide, by decide⟩

/-- C7, amended: on a sink whose listing succeeds and returns the stored
messages, whose delete call removes the message it names, and whose stored
identifiers are all below `2^63`, a second run of `deleteMessage` for the same
alert, right after the first, issues no delete-message call and writes no
error response. -/
theorem c7_second_reconciliation_is_a_no_op {σ : Type} (cfg : Config) (sink : Sink σ)
    (view : σ → List MessageExternal) (a : Alert) (s : σ)
    (hlist : ∀ t, (sink.GetAppMessages cfg.appId t).1 = .ok (view t) ∧
      view (sink.GetAppMessages cfg.appId t).2 = view t)
    (hdel : ∀ id t, view (sink.DeleteMessage id t).2 =
      (view t).filter (fun m => decide ((m.ID : Int) ≠ id)))
    (hsmall : ∀ m ∈ view s, m.ID < 2 ^ 63) :
    deleteIds (deleteMessage cfg sink a (deleteMessage cfg sink a s).2).1 = []
      ∧ ∀ e ∈ (deleteMessage cfg sink a (deleteMessage cfg sink a s).2).1,
          isErrorWrite e = false := by
  have hrun : ∀ t, deleteMessage cfg sink a t =
      (Event.getAppMessages cfg.appId (.ok (view t)) ::
        (deleteLoop sink a (view t) (sink.GetAppMessages cfg.appId t).2).1,
       (deleteLoop sink a (view t) (sink.GetAppMessages cfg.appId t).2).2) :=
    fun t => deleteMessage_ok cfg sink a t (view t) (hlist t).1
  have hids : ∀ t, deleteIds (deleteMessage cfg sink a t).1 =
      ((view t).filter (carriesFp a.Fingerprint)).map (fun m => int64 m.ID) := by
    intro t
    rw [hrun t]
    simp only [deleteIds, List.filterMap_cons]
    exact deleteIds_deleteLoop sink a (view t) _
  have hview : view (deleteMessage cfg sink a s).2 =
      (view s).filter (fun m => decide ((m.ID : Int) ∉
        ((view s).filter (carriesFp a.Fingerprint)).map (fun m => int64 m.ID))) := by
    rw [hrun s]
    simp only
    rw [deleteLoop_eq_issueDeletes, view_issueDeletes sink view hdel, (hlist s).2]
  constructor
  · rw [hids, List.map_eq_nil_iff, List.filter_eq_nil_iff]
    intro m hm hc
    rw [hview, List.mem_filter] at hm
    have hin : (m.ID : Int) ∈
        ((view s).filter (carriesFp a.Fingerprint)).map (fun m => int64 m.ID) :=
      List.mem_map.2 ⟨m, List.mem_filter.2 ⟨hm.1, hc⟩, int64_of_lt m.ID (hsmall m hm.1)⟩
    simp [hin] at hm
  · intro e he
    rw [hrun] at he
    simp only [List.mem_cons] at he
    rcases he with he | he
    · subst he; rfl
    · obtain ⟨id, r, hr⟩ := deleteLoop_events sink a _ _ e he
      subst hr; rfl

/-- The C7 instance on `storeSink`, whose listing returns the stored messages
and whose delete call removes the named message: two matching messages among
four are deleted by the first run, none by the second. -/
theorem c7_witness :
    (∀ t : List MessageExternal, (storeSink.GetAppMessages 1 t).1 = .ok t ∧
      (storeSink.GetAppMessages 1 t).2 = t)
    ∧ (∀ (id : Int) (t : List MessageExternal), (storeSink.DeleteMessage id t).2 =
        t.filter (fun m => decide ((m.ID : Int) ≠ id)))
    ∧ (∀ m ∈ storedFour, m.ID < 2 ^ 63)
    ∧ deleteIds (deleteMessage ⟨"delete", 0, 1⟩ storeSink resolvedAbc storedFour).1 = [1, 3]
    ∧ deleteIds (deleteMessage ⟨"delete", 0, 1⟩ storeSink resolvedAbc
        (deleteMessage ⟨"delete", 0, 1⟩ storeSink resolvedAbc storedFour).2).1 = [] :=
  ⟨fun _ => ⟨rfl, rfl⟩, fun _ _ => rfl, by decide, by decide,
   (c7_second_reconciliation_is_a_no_op ⟨"delete", 0, 1⟩ storeSink (fun t => t) resolvedAbc
      storedFour (fun _ => ⟨rfl, rfl⟩) (fun _ _ => rfl) (by decide)).1⟩

/-! ## The alert loop of `Handle` -/

theorem deleteMessage_shape {σ : Type} (cfg : Config) (sink : Sink σ) (a : Alert) (s : σ) :
    ∀ e ∈ (deleteMessage cfg sink a s).1,
      (∃ id r, e = Event.getAppMessages id r) ∨ (∃ id r, e = Event.deleteMessage id r) ∨
        (∃ t, e = Event.httpError t 500) := by
  intro e he
  cases h : (sink.GetAppMessages cfg.appId s).1 with
  | error err =>
    rw [deleteMessage_error cfg sink a s err h] at he
    simp only [List.mem_cons, List.mem_singleton, List.not_mem_nil, or_false] at he
    rcases he with he | he
    · exact Or.inl ⟨_, _, he⟩
    · exact Or.inr (Or.inr ⟨_, he⟩)
  | ok msgs =>
    rw [deleteMessage_ok cfg sink a s msgs h] at he
    simp only [List.mem_cons] at he
    rcases he with he | he
    · exact Or.inl ⟨_, _, he⟩
    · exact Or.inr (Or.inl (deleteLoop_events sink a _ _ e he))

theorem createBodies_deleteMessage {σ : Type} (cfg : Config) (sink : Sink σ) (a : Alert)
    (s : σ) : createBodies (deleteMessage cfg sink a s).1 = [] := by
  unfold createBodies
  rw [List.filterMap_eq_nil_iff]
  intro e he
  rcases deleteMessage_shape cfg sink a s e he with ⟨_, _, h⟩ | ⟨_, _, h⟩ | ⟨_, h⟩ <;>
    subst h <;> rfl

theorem createFailures_deleteMessage {σ : Type} (cfg : Config) (sink : Sink σ) (a : Alert)
    (s : σ) : createFailures (deleteMessage cfg sink a s).1 = [] := by
  unfold createFailures
  rw [List.filterMap_eq_nil_iff]
  intro e he
  rcases deleteMessage_shape cfg sink a s e he with ⟨_, _, h⟩ | ⟨_, _, h⟩ | ⟨_, h⟩ <;>
    subst h <;> rfl

theorem createBodies_append (es fs : List Event) :
    createBodies (es ++ fs) = createBodies es ++ createBodies fs := by
  simp [createBodies]

theorem createFailures_append (es fs : List Event) :
    createFailures (es ++ fs) = createFailures es ++ createFailures fs := by
  simp [createFailures]

theorem branch_of_not_sent (policy : String) (a : Alert)
    (hpol : policy = "notify" ∨ policy = "ignore" ∨ policy = "delete")
    (h : isSent policy a = false) :
    branch policy a = Branch.skip ∨ branch policy a = Branch.reconcile := by
  simp only [isSent, decide_eq_false_iff_not, not_or, not_not] at h
  unfold branch
  rw [if_pos h.1]
  rcases hpol with hp | hp | hp
  · exact absurd hp h.2
  · subst hp; left; simp
  · subst hp; right; simp

theorem branch_of_sent (policy : String) (a : Alert) (h : isSent policy a = true) :
    ∃ level, branch policy a = Branch.send level := by
  simp only [isSent, decide_eq_true_eq] at h
  unfold branch
  by_cases hs : a.Status = "resolved"
  · rw [if_pos hs]
    rcases h with h | h
    · exact absurd hs h
    · subst h
      exact ⟨"resolved", by simp⟩
  · rw [if_neg hs]
    simp only
    split
    · exact ⟨_, rfl⟩
    · exact ⟨_, rfl⟩

theorem createBodies_loopBody {σ : Type} (cfg : Config) (sink : Sink σ) (a : Alert)
    (lastErr : Option String) (s : σ)
    (hpol : cfg.resolved = "notify" ∨ cfg.resolved = "ignore" ∨ cfg.resolved = "delete") :
    createBodies (loopBody cfg sink a lastErr s).1 =
      if isSent cfg.resolved a = true then [outbound a] else [] := by
  by_cases h : isSent cfg.resolved a = true
  · obtain ⟨level, hb⟩ := branch_of_sent cfg.resolved a h
    rw [if_pos h]
    unfold loopBody
    rw [hb]
    simp only
    split <;> rfl
  · rw [if_neg h]
    unfold loopBody
    rcases branch_of_not_sent cfg.resolved a hpol (by simpa using h) with hb | hb
    · rw [hb]; rfl
    · rw [hb]; exact createBodies_deleteMessage cfg sink a s

theorem createBodies_alertLoop {σ : Type} (cfg : Config) (sink : Sink σ)
    (alerts : List Alert) (lastErr : Option String) (s : σ)
    (hpol : cfg.resolved = "notify" ∨ cfg.resolved = "ignore" ∨ cfg.resolved = "delete") :
    createBodies (alertLoop cfg sink alerts lastErr s).1 =
      (alerts.filter (isSent cfg.resolved)).map outbound := by
  induction alerts generalizing lastErr s with
  | nil => rfl
  | cons a as ih =>
    unfold alertLoop
    simp only
    rw [createBodies_append, createBodies_loopBody cfg sink a lastErr s hpol, ih]
    by_cases h : isSent cfg.resolved a = true
    · simp [h]
    · simp [h]

theorem lastErr_loopBody {σ : Type} (cfg : Config) (sink : Sink σ) (a : Alert)
    (lastErr : Option String) (s : σ) :
    (loopBody cfg sink a lastErr s).2.1 =
      (createFailures (loopBody cfg sink a lastErr s).1).getLast?.or lastErr := by
  unfold loopBody
  split
  · rfl
  · simp only [createFailures_deleteMessage]
    rfl
  · simp only
    split
    · rename_i err h
      simp only [createFailures, List.filterMap_cons, h]
      rfl
    · rename_i u h
      simp only [createFailures, List.filterMap_cons, h]
      rfl

theorem lastErr_alertLoop {σ : Type} (cfg : Config) (sink : Sink σ)
    (alerts : List Alert) (lastErr : Option String) (s : σ) :
    (alertLoop cfg sink alerts lastErr s).2.1 =
      (createFailures (alertLoop cfg sink alerts lastErr s).1).getLast?.or lastErr := by
  induction alerts generalizing lastErr s with
  | nil => rfl
  | cons a as ih =>
    unfold alertLoop
    simp only
    rw [ih, createFailures_append, List.getLast?_append, lastErr_loopBody, Option.or_assoc]

theorem alertLoop_append {σ : Type} (cfg : Config) (sink : Sink σ)
    (xs ys : List Alert) (lastErr : Option String) (s : σ) :
    alertLoop cfg sink (xs ++ ys) lastErr s =
      ((alertLoop cfg sink xs lastErr s).1 ++
        (alertLoop cfg sink ys (alertLoop cfg sink xs lastErr s).2.1
          (alertLoop cfg sink xs lastErr s).2.2).1,
       (alertLoop cfg sink ys (alertLoop cfg sink xs lastErr s).2.1
          (alertLoop cfg sink xs lastErr s).2.2).2) := by
  induction xs generalizing lastErr s with
  | nil => rfl
  | cons a as ih =>
    simp only [List.cons_append]
    rw [alertLoop, ih]
    simp only [alertLoop, List.append_assoc]

theorem loopBody_shape {σ : Type} (cfg : Config) (sink : Sink σ) (a : Alert)
    (lastErr : Option String) (s : σ) :
    ∀ e ∈ (loopBody cfg sink a lastErr s).1,
      isSinkCall e = true ∨ (∃ t, e = Event.httpError t 500) := by
  intro e he
  unfold loopBody at he
  split at he
  · cases he
  · rcases deleteMessage_shape cfg sink a s e he with ⟨_, _, h⟩ | ⟨_, _, h⟩ | h
    · subst h; exact Or.inl rfl
    · subst h; exact Or.inl rfl
    · exact Or.inr h
  · simp only at he
    split at he <;>
    · simp only [List.mem_singleton] at he
      subst he
      exact Or.inl rfl

theorem alertLoop_shape {σ : Type} (cfg : Config) (sink : Sink σ)
    (alerts : List Alert) (lastErr : Option String) (s : σ) :
    ∀ e ∈ (alertLoop cfg sink alerts lastErr s).1,
      isSinkCall e = true ∨ (∃ t, e = Event.httpError t 500) := by
  induction alerts generalizing lastErr s with
  | nil => intro e he; cases he
  | cons a as ih =>
    intro e he
    unfold alertLoop at he
    simp only [List.mem_append] at he
    rcases he with he | he
    · exact loopBody_shape cfg sink a lastErr s e he
    · exact ih _ _ e he

theorem Handle_ok {σ : Type} (cfg : Config) (sink : Sink σ)
    (decode : String → Except String Data) (body : String) (s : σ) (m : Data)
    (h : decode body = .ok m) :
    Handle cfg sink decode body s =
      ((alertLoop cfg sink m.Alerts none s).1 ++
        [finalResponse (createFailures (alertLoop cfg sink m.Alerts none s).1)] ++
        deferred cfg,
       (alertLoop cfg sink m.Alerts none s).2.2) := by
  unfold Handle
  rw [h]
  simp only
  have hl := lastErr_alertLoop cfg sink m.Alerts none s
  rw [Option.or_none] at hl
  unfold finalResponse
  rw [← hl]
  split <;> rename_i h2 <;> simp only [h2]

theorem createFailures_finalResponse (fs : List String) :
    createFailures [finalResponse fs] = [] := by
  unfold finalResponse
  split <;> rfl

theorem createFailures_deferred (cfg : Config) : createFailures (deferred cfg) = [] := by
  unfold deferred
  split <;> rfl

theorem createBodies_finalResponse (fs : List String) :
    createBodies [finalResponse fs] = [] := by
  unfold finalResponse
  split <;> rfl

theorem createBodies_deferred (cfg : Config) : createBodies (deferred cfg) = [] := by
  unfold deferred
  split <;> rfl

theorem createBodies_Handle {σ : Type} (cfg : Config) (sink : Sink σ)
    (decode : String → Except String Data) (body : String) (s : σ) (m : Data)
    (h : decode body = .ok m)
    (hpol : cfg.resolved = "notify" ∨ cfg.resolved = "ignore" ∨ cfg.resolved = "delete") :
    createBodies (Handle cfg sink decode body s).1 =
      (m.Alerts.filter (isSent cfg.resolved)).map outbound := by
  rw [Handle_ok cfg sink decode body s m h]
  simp only [createBodies_append, createBodies_finalResponse, createBodies_deferred,
    List.append_nil]
  exact createBodies_alertLoop cfg sink m.Alerts none s hpol

/-! ## The response of `Handle` -/

theorem isWrite_finalResponse (fs : List String) : isWrite (finalResponse fs) = true := by
  unfold finalResponse
  split <;> rfl

theorem respond_of_not_write (r : Response) (e : Event) (h : isWrite e = false) :
    respond r e = r := by
  cases e <;> first | rfl | cases h

theorem foldl_respond_of_no_write (es : List Event) (r : Response)
    (h : ∀ e ∈ es, isWrite e = false) : es.foldl respond r = r := by
  induction es generalizing r with
  | nil => rfl
  | cons e es ih =>
    simp only [List.foldl_cons]
    rw [respond_of_not_write r e (h e (List.mem_cons_self _ _))]
    exact ih r (fun x hx => h x (List.mem_cons_of_mem _ hx))

theorem isWrite_deferred (cfg : Config) : ∀ e ∈ deferred cfg, isWrite e = false := by
  intro e he
  unfold deferred at he
  simp only [List.mem_append, List.mem_singleton] at he
  rcases he with he | he
  · split at he
    · simp only [List.mem_singleton] at he
      subst he; rfl
    · cases he
  · subst he; rfl

theorem deleteMessage_write_has_failed_listing {σ : Type} (cfg : Config) (sink : Sink σ)
    (a : Alert) (s : σ) :
    ∀ e ∈ (deleteMessage cfg sink a s).1, isWrite e = true →
      ∃ f ∈ (deleteMessage cfg sink a s).1, isFailedListing f = true := by
  intro e he hw
  cases h : (sink.GetAppMessages cfg.appId s).1 with
  | error err =>
    rw [deleteMessage_error cfg sink a s err h]
    exact ⟨_, List.mem_cons_self _ _, rfl⟩
  | ok msgs =>
    rw [deleteMessage_ok cfg sink a s msgs h] at he
    simp only [List.mem_cons] at he
    rcases he with he | he
    · subst he; cases hw
    · obtain ⟨id, r, hr⟩ := deleteLoop_events sink a _ _ e he
      subst hr; cases hw

theorem loopBody_write_has_failed_listing {σ : Type} (cfg : Config) (sink : Sink σ)
    (a : Alert) (lastErr : Option String) (s : σ) :
    ∀ e ∈ (loopBody cfg sink a lastErr s).1, isWrite e = true →
      ∃ f ∈ (loopBody cfg sink a lastErr s).1, isFailedListing f = true := by
  unfold loopBody
  split
  · intro e he; cases he
  · exact deleteMessage_write_has_failed_listing cfg sink a s
  · simp only
    split <;>
    · intro e he hw
      simp only [List.mem_singleton] at he
      subst he
      cases hw

theorem alertLoop_write_has_failed_listing {σ : Type} (cfg : Config) (sink : Sink σ)
    (alerts : List Alert) (lastErr : Option String) (s : σ) :
    ∀ e ∈ (alertLoop cfg sink alerts lastErr s).1, isWrite e = true →
      ∃ f ∈ (alertLoop cfg sink alerts lastErr s).1, isFailedListing f = true := by
  induction alerts generalizing lastErr s with
  | nil => intro e he; cases he
  | cons a as ih =>
    unfold alertLoop
    intro e he hw
    simp only [List.mem_append] at he
    rcases he with he | he
    · obtain ⟨f, hf, hfl⟩ := loopBody_write_has_failed_listing cfg sink a lastErr s e he hw
      exact ⟨f, List.mem_append_left _ hf, hfl⟩
    · obtain ⟨f, hf, hfl⟩ := ih _ _ e he hw
      exact ⟨f, List.mem_append_right _ hf, hfl⟩

theorem respond_finalResponse (fs : List String) :
    respond { status := none, body := "" } (finalResponse fs) = claimedResponse fs := by
  unfold finalResponse claimedResponse
  cases fs.getLast? with
  | none => rfl
  | some err =>
    simp [respond, Response.writeHeader, Response.write]

/-- C2, as stated, fails: under policy `delete`, for a batch of one resolved
alert whose listing fails, no create-message call fails, and the response is
status 500 with the text of the listing failure, not status 204 with no
body. -/
theorem c2_counterexample :
    decodeTo [resolvedAbc] "ok" = .ok ⟨[resolvedAbc]⟩
    ∧ createFailures (Handle ⟨"delete", 0, 1⟩ failSink (decodeTo [resolvedAbc]) "ok" ()).1 = []
    ∧ (Handle ⟨"delete", 0, 1⟩ failSink (decodeTo [resolvedAbc]) "ok" ()).1.filter isWrite =
        [Event.httpError "GetAppMessages failed: boom" 500, Event.writeHeader 204]
    ∧ response (Handle ⟨"delete", 0, 1⟩ failSink (decodeTo [resolvedAbc]) "ok" ()).1 =
        { status := some 500, body := "GetAppMessages failed: boom\n" }
    ∧ response (Handle ⟨"delete", 0, 1⟩ failSink (decodeTo [resolvedAbc]) "ok" ()).1 ≠
        { status := some 204, body := "" } := by
  decide

/-- C2, amended: when the body decodes to a batch and no list-messages call of
the request fails, the trace of `Handle` is the trace of the alert loop, then
one write to the response, then the deferred calls; that write is the only
one, and the response is status 500 with the text naming the last failed
create-message call when some create-message call failed, and status 204 with
no body otherwise. -/
theorem c2_response_after_the_loop {σ : Type} (cfg : Config) (sink : Sink σ)
    (decode : String → Except String Data) (body : String) (s : σ) (m : Data)
    (h : decode body = .ok m)
    (hlist : ∀ e ∈ (Handle cfg sink decode body s).1, isFailedListing e = false) :
    (Handle cfg sink decode body s).1 =
        (alertLoop cfg sink m.Alerts none s).1 ++
          [finalResponse (createFailures (Handle cfg sink decode body s).1)] ++ deferred cfg
      ∧ (Handle cfg sink decode body s).1.filter isWrite =
          [finalResponse (createFailures (Handle cfg sink decode body s).1)]
      ∧ (createFailures (Handle cfg sink decode body s).1 = [] →
          response (Handle cfg sink decode body s).1 = { status := some 204, body := "" })
      ∧ (∀ err, (createFailures (Handle cfg sink decode body s).1).getLast? = some err →
          response (Handle cfg sink decode body s).1 =
            { status := some 500, body := "error sending Gotify message: " ++ err ++ "\n" }) := by
  have hf : createFailures (Handle cfg sink decode body s).1 =
      createFailures (alertLoop cfg sink m.Alerts none s).1 := by
    rw [Handle_ok cfg sink decode body s m h]
    simp only [createFailures_append, createFailures_finalResponse, createFailures_deferred,
      List.append_nil]
  have htr : (Handle cfg sink decode body s).1 =
      (alertLoop cfg sink m.Alerts none s).1 ++
        [finalResponse (createFailures (Handle cfg sink decode body s).1)] ++ deferred cfg := by
    rw [hf, Handle_ok cfg sink decode body s m h]
  have hloop : ∀ e ∈ (alertLoop cfg sink m.Alerts none s).1, isWrite e = false := by
    intro e he
    cases hw : isWrite e with
    | false => rfl
    | true =>
      obtain ⟨f, hfm, hfl⟩ :=
        alertLoop_write_has_failed_listing cfg sink m.Alerts none s e he hw
      have hin : f ∈ (Handle cfg sink decode body s).1 := by
        rw [htr]
        exact List.mem_append_left _ (List.mem_append_left _ hfm)
      rw [hlist f hin] at hfl
      cases hfl
  have hresp : response (Handle cfg sink decode body s).1 =
      claimedResponse (createFailures (Handle cfg sink decode body s).1) := by
    have h1 : response ((alertLoop cfg sink m.Alerts none s).1 ++
        [finalResponse (createFailures (Handle cfg sink decode body s).1)] ++ deferred cfg) =
        claimedResponse (createFailures (Handle cfg sink decode body s).1) := by
      unfold response
      rw [List.foldl_append, List.foldl_append, foldl_respond_of_no_write _ _ hloop,
        foldl_respond_of_no_write _ _ (isWrite_deferred cfg)]
      exact respond_finalResponse _
    rw [← h1, ← htr]
  have hwrites : (Handle cfg sink decode body s).1.filter isWrite =
      [finalResponse (createFailures (Handle cfg sink decode body s).1)] := by
    have h1 : ((alertLoop cfg sink m.Alerts none s).1 ++
        [finalResponse (createFailures (Handle cfg sink decode body s).1)] ++
        deferred cfg).filter isWrite =
        [finalResponse (createFailures (Handle cfg sink decode body s).1)] := by
      have hl : (alertLoop cfg sink m.Alerts none s).1.filter isWrite = [] :=
        List.filter_eq_nil_iff.2 (fun e he => by simp [hloop e he])
      have hd : (deferred cfg).filter isWrite = [] :=
        List.filter_eq_nil_iff.2 (fun e he => by simp [isWrite_deferred cfg e he])
      simp only [List.filter_append, hl, hd, List.nil_append, List.append_nil]
      simp [List.filter_cons, isWrite_finalResponse]
    rw [← htr] at h1
    exact h1
  refine ⟨htr, hwrites, ?_, ?_⟩
  · intro h0
    rw [hresp, h0]
    rfl
  · intro err h1
    rw [hresp]
    unfold claimedResponse
    rw [h1]

/-- The C2 instance: three firing alerts, the first two create calls fail with
the texts `first` and `second`; the response names `second`. -/
theorem c2_witness :
    decodeTo [diskFull, diskFull, diskFull] "ok" = .ok ⟨[diskFull, diskFull, diskFull]⟩
    ∧ (∀ e ∈ (Handle ⟨"notify", 0, 1⟩ (scriptSink firstTwoFail [])
        (decodeTo [diskFull, diskFull, diskFull]) "ok" 0).1, isFailedListing e = false)
    ∧ createFailures (Handle ⟨"notify", 0, 1⟩ (scriptSink firstTwoFail [])
        (decodeTo [diskFull, diskFull, diskFull]) "ok" 0).1 = ["first", "second"]
    ∧ response (Handle ⟨"notify", 0, 1⟩ (scriptSink firstTwoFail [])
        (decodeTo [diskFull, diskFull, diskFull]) "ok" 0).1 =
      { status := some 500, body := "error sending Gotify message: " ++ "second" ++ "\n" } :=
  ⟨by decide, by decide, by decide,
   (c2_response_after_the_loop ⟨"notify", 0, 1⟩ (scriptSink firstTwoFail [])
      (decodeTo [diskFull, diskFull, diskFull]) "ok" 0 ⟨[diskFull, diskFull, diskFull]⟩
      (by decide) (by decide)).2.2.2 "second" (by decide)⟩

/-- C3: when the body fails to decode, `Handle` calls `http.Error` with status
400 and the decode error text, runs its deferred calls, makes no call to the
sink and leaves the sink as it was, whatever the resolved-alert policy. -/
theorem c3_decode_failure_is_400_without_sink_call {σ : Type} (cfg : Config)
    (sink : Sink σ) (decode : String → Except String Data) (body : String) (s : σ)
    (err : String) (h : decode body = .error err) :
    Handle cfg sink decode body s =
        ([Event.httpError ("error decoding AM hook message: " ++ err) 400] ++ deferred cfg, s)
      ∧ ∀ e ∈ (Handle cfg sink decode body s).1, isSinkCall e = false := by
  have hH : Handle cfg sink decode body s =
      ([Event.httpError ("error decoding AM hook message: " ++ err) 400] ++ deferred cfg,
        s) := by
    unfold Handle
    rw [h]
  refine ⟨hH, ?_⟩
  intro e he
  rw [hH] at he
  unfold deferred at he
  simp only [List.singleton_append, List.mem_cons, List.mem_append, List.mem_singleton,
    List.not_mem_nil, or_false] at he
  rcases he with he | he | he
  · subst he; rfl
  · split at he
    · simp only [List.mem_singleton] at he
      subst he; rfl
    · cases he
  · subst he; rfl

/-- The C3 instance: a body the decoder rejects, under policy `delete`, on a
sink that would fail every call. -/
theorem c3_witness :
    decodeTo [diskFull, resolvedAbc] "broken" = .error "unexpected EOF"
    ∧ Handle ⟨"delete", 7, 1⟩ failSink (decodeTo [diskFull, resolvedAbc]) "broken" () =
      ([Event.httpError ("error decoding AM hook message: " ++ "unexpected EOF") 400] ++
        deferred ⟨"delete", 7, 1⟩, ()) :=
  ⟨by decide,
   (c3_decode_failure_is_400_without_sink_call ⟨"delete", 7, 1⟩ failSink
      (decodeTo [diskFull, resolvedAbc]) "broken" () "unexpected EOF" (by decide)).1⟩

theorem finalResponse_cases (fs : List String) :
    (∃ t, finalResponse fs = Event.httpError t 500) ∨
      finalResponse fs = Event.writeHeader 204 := by
  unfold finalResponse
  split
  · exact Or.inl ⟨_, rfl⟩
  · exact Or.inr rfl

theorem pleaseQuit_not_mem_alertLoop {σ : Type} (cfg : Config) (sink : Sink σ)
    (alerts : List Alert) (lastErr : Option String) (s : σ) :
    Event.pleaseQuit ∉ (alertLoop cfg sink alerts lastErr s).1 := by
  intro hmem
  rcases alertLoop_shape cfg sink alerts lastErr s _ hmem with h | ⟨_, h⟩
  · cases h
  · cases h

/-- C9: the trace of `Handle` always ends with one response (status 400 after
a decode failure, status 500 or 204 after the loop), then the send on
`pleaseQuit` when `exitAfter` is non-zero, then the close of the body; the
send occurs nowhere else, so it is posted exactly once when `exitAfter` is
non-zero and never when it is zero, and only after every write to the
response. -/
theorem c9_one_signal_after_the_response {σ : Type} (cfg : Config) (sink : Sink σ)
    (decode : String → Except String Data) (body : String) (s : σ) :
    (∃ before w, (Handle cfg sink decode body s).1 =
        before ++ [w] ++ (if cfg.exitAfter ≠ 0 then [Event.pleaseQuit] else []) ++
          [Event.bodyClose]
      ∧ ((∃ t, w = Event.httpError t 400) ∨ (∃ t, w = Event.httpError t 500) ∨
          w = Event.writeHeader 204)
      ∧ Event.pleaseQuit ∉ before)
    ∧ (Handle cfg sink decode body s).1.count Event.pleaseQuit =
        (if cfg.exitAfter ≠ 0 then 1 else 0) := by
  have hex : ∃ before w, (Handle cfg sink decode body s).1 =
        before ++ [w] ++ (if cfg.exitAfter ≠ 0 then [Event.pleaseQuit] else []) ++
          [Event.bodyClose]
      ∧ ((∃ t, w = Event.httpError t 400) ∨ (∃ t, w = Event.httpError t 500) ∨
          w = Event.writeHeader 204)
      ∧ Event.pleaseQuit ∉ before := by
    cases h : decode body with
    | error err =>
      refine ⟨[], Event.httpError ("error decoding AM hook message: " ++ err) 400, ?_,
        Or.inl ⟨_, rfl⟩, List.not_mem_nil _⟩
      unfold Handle deferred
      rw [h]
      simp
    | ok m =>
      refine ⟨(alertLoop cfg sink m.Alerts none s).1,
        finalResponse (createFailures (alertLoop cfg sink m.Alerts none s).1), ?_, ?_,
        pleaseQuit_not_mem_alertLoop cfg sink m.Alerts none s⟩
      · rw [Handle_ok cfg sink decode body s m h]
        unfold deferred
        simp
      · rcases finalResponse_cases (createFailures (alertLoop cfg sink m.Alerts none s).1)
          with h1 | h1
        · exact Or.inr (Or.inl h1)
        · exact Or.inr (Or.inr h1)
  refine ⟨hex, ?_⟩
  obtain ⟨before, w, htr, hw, hnot⟩ := hex
  rw [htr]
  have hw0 : List.count Event.pleaseQuit [w] = 0 := by
    rcases hw with ⟨t, hw⟩ | ⟨t, hw⟩ | hw <;> subst hw <;> rfl
  simp only [List.count_append, List.count_eq_zero_of_not_mem hnot, hw0]
  split <;> rfl

theorem loopBody_reconcile_error {σ : Type} (cfg : Config) (sink : Sink σ) (a : Alert)
    (lastErr : Option String) (s : σ) (err : String)
    (hpol : cfg.resolved = "delete") (hres : a.Status = "resolved")
    (hfail : (sink.GetAppMessages cfg.appId s).1 = .error err) :
    loopBody cfg sink a lastErr s =
      ([Event.getAppMessages cfg.appId (.error err),
        Event.httpError ("GetAppMessages failed: " ++ err) 500],
       lastErr, (sink.GetAppMessages cfg.appId s).2) := by
  have hb : branch cfg.resolved a = Branch.reconcile := by
    unfold branch
    rw [if_pos hres, hpol]
    simp
  unfold loopBody
  rw [hb]
  simp only [deleteMessage_error cfg sink a s err hfail]

/-- C10: under policy `delete`, when the listing fails for a resolved alert
`a` of the batch `before ++ a :: after`, the trace of `Handle` is the trace of
the alerts before `a`, then the failed listing and `http.Error` with status
500 and no delete call, then the trace of the loop over every alert after `a`
(carrying on from the same `lastErr`), then the end-of-loop response and the
deferred calls; such a request writes to the response more than once, and
there is such a request. -/
theorem c10_listing_failure_writes_and_continues {σ : Type} (cfg : Config)
    (sink : Sink σ) (decode : String → Except String Data) (body : String) (s : σ)
    (before after : List Alert) (a : Alert) (err : String)
    (hpol : cfg.resolved = "delete") (hres : a.Status = "resolved")
    (hdec : decode body = .ok ⟨before ++ a :: after⟩)
    (hfail : (sink.GetAppMessages cfg.appId (alertLoop cfg sink before none s).2.2).1 =
      .error err) :
    (Handle cfg sink decode body s).1 =
        (alertLoop cfg sink before none s).1 ++
          [Event.getAppMessages cfg.appId (.error err),
           Event.httpError ("GetAppMessages failed: " ++ err) 500] ++
          (alertLoop cfg sink after (alertLoop cfg sink before none s).2.1
            (sink.GetAppMessages cfg.appId (alertLoop cfg sink before none s).2.2).2).1 ++
          [finalResponse (createFailures (Handle cfg sink decode body s).1)] ++
          deferred cfg
      ∧ 1 < ((Handle cfg sink decode body s).1.filter isWrite).length
      ∧ ∃ alerts : List Alert,
          1 < ((Handle ⟨"delete", 0, 1⟩ failSink (decodeTo alerts) "ok" ()).1.filter
            isWrite).length := by
  have hloop : (alertLoop cfg sink (before ++ a :: after) none s).1 =
      (alertLoop cfg sink before none s).1 ++
        [Event.getAppMessages cfg.appId (.error err),
         Event.httpError ("GetAppMessages failed: " ++ err) 500] ++
        (alertLoop cfg sink after (alertLoop cfg sink before none s).2.1
          (sink.GetAppMessages cfg.appId (alertLoop cfg sink before none s).2.2).2).1 := by
    rw [alertLoop_append]
    simp only [alertLoop]
    rw [loopBody_reconcile_error cfg sink a _ _ err hpol hres hfail]
    simp only [List.append_assoc]
  have hf : createFailures (Handle cfg sink decode body s).1 =
      createFailures (alertLoop cfg sink (before ++ a :: after) none s).1 := by
    rw [Handle_ok cfg sink decode body s _ hdec]
    simp only [createFailures_append, createFailures_finalResponse, createFailures_deferred,
      List.append_nil]
  have htr : (Handle cfg sink decode body s).1 =
      (alertLoop cfg sink before none s).1 ++
        [Event.getAppMessages cfg.appId (.error err),
         Event.httpError ("GetAppMessages failed: " ++ err) 500] ++
        (alertLoop cfg sink after (alertLoop cfg sink before none s).2.1
          (sink.GetAppMessages cfg.appId (alertLoop cfg sink before none s).2.2).2).1 ++
        [finalResponse (createFailures (Handle cfg sink decode body s).1)] ++
        deferred cfg := by
    rw [hf, Handle_ok cfg sink decode body s _ hdec, hloop]
  refine ⟨htr, ?_, ⟨[resolvedAbc], by decide⟩⟩
  rw [htr]
  have hmid : (List.filter isWrite [Event.getAppMessages cfg.appId (.error err),
      Event.httpError ("GetAppMessages failed: " ++ err) 500]).length = 1 := rfl
  have hfin : (List.filter isWrite
      [finalResponse (createFailures (Handle cfg sink decode body s).1)]).length = 1 := by
    simp [List.filter_cons, isWrite_finalResponse]
  simp only [List.filter_append, List.length_append, hmid, hfin]
  omega

/-- The C10 instance: policy `delete`, a firing alert, a resolved alert whose
listing fails, another firing alert; the response is written twice. -/
theorem c10_witness :
    (⟨"delete", 0, 1⟩ : Config).resolved = "delete"
    ∧ resolvedAbc.Status = "resolved"
    ∧ decodeTo [diskFull, resolvedAbc, diskFull] "ok" =
        .ok ⟨[diskFull] ++ resolvedAbc :: [diskFull]⟩
    ∧ (failSink.GetAppMessages 1 (alertLoop ⟨"delete", 0, 1⟩ failSink [diskFull] none ()).2.2).1
        = .error "boom"
    ∧ 1 < ((Handle ⟨"delete", 0, 1⟩ failSink (decodeTo [diskFull, resolvedAbc, diskFull])
        "ok" ()).1.filter isWrite).length :=
  ⟨by decide, by decide, by decide, by decide,
   (c10_listing_failure_writes_and_continues ⟨"delete", 0, 1⟩ failSink
      (decodeTo [diskFull, resolvedAbc, diskFull]) "ok" () [diskFull] [diskFull]
      resolvedAbc "boom" (by decide) (by decide) (by decide) (by decide)).2.1⟩

/-! ## The created message -/

theorem outbound_Title (a : Alert) : (outbound a).Title = specTitle a := rfl

theorem outbound_Extras (a : Alert) :
    (outbound a).Extras = [("am2gotify/fp", Value.str a.Fingerprint)] := rfl

theorem outbound_Message (a : Alert) : (outbound a).Message = amendedBody a := by
  unfold outbound amendedBody index
  cases h : List.lookup "instance" a.Labels with
  | none => simp
  | some i =>
    by_cases hi : i = ""
    · simp [hi]
    · simp [hi]

theorem outbound_Priority (a : Alert) : (outbound a).Priority = amendedPriority a := by
  have hempty : Atoi "" = .error .errSyn := by decide
  unfold outbound amendedPriority index
  cases h : List.lookup "p" a.Labels with
  | none => simp [hempty]
  | some t =>
    simp only [Option.getD_some]
    cases hA : Atoi t with
    | ok pp =>
      obtain ⟨hd, hr⟩ := (Atoi_ok t pp).1 hA
      simp only [hd, hr, and_self, if_true]
    | error e =>
      cases hd : denotedInt t with
      | none => rfl
      | some v =>
        by_cases hr : - 2 ^ 63 ≤ v ∧ v < 2 ^ 63
        · have := (Atoi_ok t v).2 ⟨hd, hr⟩
          rw [hA] at this
          cases this
        · simp only [hr, if_false]

/-- C4, as stated, fails: for a firing alert whose `instance` label is present
with the empty value and whose description is `d`, the claim gives the body
`: d`, and `Handle` creates a message with body `d`. -/
theorem c4_counterexample :
    emptyInstance.Labels.lookup "instance" = some ""
    ∧ claimedBody emptyInstance = ": d"
    ∧ (createBodies (Handle ⟨"notify", 0, 1⟩ okSink (decodeTo [emptyInstance]) "ok" ()).1).map
        (fun b => b.Message) = ["d"]
    ∧ (createBodies (Handle ⟨"notify", 0, 1⟩ okSink (decodeTo [emptyInstance]) "ok" ()).1).map
        (fun b => b.Message) ≠ [claimedBody emptyInstance] := by
  decide

/-- C4, amended: under each of the three policies, the messages `Handle`
passes to create-message are, in batch order, those of the alerts that are
not resolved or are resolved under policy `notify`, each with title
`[<status>] <summary>`, body `<instance>: <description>` when the instance
label is present and not empty and `<description>` otherwise, and extras
mapping `am2gotify/fp` to the fingerprint; the two-alert batch of the
specification under policy `notify`, on a sink whose calls succeed, gives the
titles `[firing] disk full` and `[resolved] ` and the single response 204. -/
theorem c4_created_message_fields {σ : Type} (cfg : Config) (sink : Sink σ)
    (decode : String → Except String Data) (body : String) (s : σ) (m : Data)
    (h : decode body = .ok m)
    (hpol : cfg.resolved = "notify" ∨ cfg.resolved = "ignore" ∨ cfg.resolved = "delete") :
    (createBodies (Handle cfg sink decode body s).1).map
        (fun b => (b.Title, b.Message, b.Extras)) =
      (m.Alerts.filter (isSent cfg.resolved)).map
        (fun a => (specTitle a, amendedBody a, [("am2gotify/fp", Value.str a.Fingerprint)]))
    ∧ (createBodies (Handle ⟨"notify", 0, 1⟩ okSink (decodeTo [diskFull, resolvedAbc])
          "ok" ()).1).map (fun b => (b.Title, b.Message)) =
        [("[firing] disk full", ""), ("[resolved] ", "")]
    ∧ (Handle ⟨"notify", 0, 1⟩ okSink (decodeTo [diskFull, resolvedAbc]) "ok" ()).1.filter
          isWrite = [Event.writeHeader 204] := by
  refine ⟨?_, by decide, by decide⟩
  rw [createBodies_Handle cfg sink decode body s m h hpol, List.map_map]
  apply List.map_congr_left
  intro a _
  simp only [Function.comp, outbound_Title, outbound_Message, outbound_Extras]

/-- The C4 instance: a batch of one alert with an instance label and one with
an empty instance label, under policy `notify`. -/
theorem c4_witness :
    decodeTo [emptyInstance, diskFull] "ok" = .ok ⟨[emptyInstance, diskFull]⟩
    ∧ ((⟨"notify", 0, 1⟩ : Config).resolved = "notify" ∨
        (⟨"notify", 0, 1⟩ : Config).resolved = "ignore" ∨
        (⟨"notify", 0, 1⟩ : Config).resolved = "delete")
    ∧ (createBodies (Handle ⟨"notify", 0, 1⟩ okSink (decodeTo [emptyInstance, diskFull])
          "ok" ()).1).map (fun b => (b.Title, b.Message, b.Extras)) =
        [("[firing] ", "d", [("am2gotify/fp", Value.str "f")]),
         ("[firing] disk full", "", [("am2gotify/fp", Value.str "")])] :=
  ⟨by decide, by decide,
   (c4_created_message_fields ⟨"notify", 0, 1⟩ okSink (decodeTo [emptyInstance, diskFull])
      "ok" () ⟨[emptyInstance, diskFull]⟩ (by decide) (by decide)).1.trans (by decide)⟩

/-- C5, as stated, fails: the `p` label `9223372036854775808` is a valid
integer, and `Handle` creates a message of priority 5, not of that integer. -/
theorem c5_counterexample :
    bigPriority.Labels.lookup "p" = some "9223372036854775808"
    ∧ denotedInt "9223372036854775808" = some 9223372036854775808
    ∧ claimedPriority bigPriority = 9223372036854775808
    ∧ (createBodies (Handle ⟨"notify", 0, 1⟩ okSink (decodeTo [bigPriority]) "ok" ()).1).map
        (fun b => b.Priority) = [5] := by
  decide

/-- C5, amended: under each of the three policies, the priorities of the
messages `Handle` creates are, in batch order, those of the alerts it sends:
5 when the `p` label is absent or is not a valid integer or denotes an
integer outside the range of a 64-bit `int`, and exactly the integer denoted
by the `p` label when it is a valid integer within that range. -/
theorem c5_created_message_priority {σ : Type} (cfg : Config) (sink : Sink σ)
    (decode : String → Except String Data) (body : String) (s : σ) (m : Data)
    (h : decode body = .ok m)
    (hpol : cfg.resolved = "notify" ∨ cfg.resolved = "ignore" ∨ cfg.resolved = "delete") :
    (createBodies (Handle cfg sink decode body s).1).map (fun b => b.Priority) =
      (m.Alerts.filter (isSent cfg.resolved)).map amendedPriority := by
  rw [createBodies_Handle cfg sink decode body s m h hpol, List.map_map]
  apply List.map_congr_left
  intro a _
  simp only [Function.comp, outbound_Priority]

/-- The C5 instance: the labels `p = -3`, `p = x1`, `p = +007`, no `p`, and
`p` one above the largest `int`. -/
theorem c5_witness :
    decodeTo priorityBatch "ok" = .ok ⟨priorityBatch⟩
    ∧ ((⟨"ignore", 0, 1⟩ : Config).resolved = "notify" ∨
        (⟨"ignore", 0, 1⟩ : Config).resolved = "ignore" ∨
        (⟨"ignore", 0, 1⟩ : Config).resolved = "delete")
    ∧ (createBodies (Handle ⟨"ignore", 0, 1⟩ okSink (decodeTo priorityBatch)
          "ok" ()).1).map (fun b => b.Priority) = [-3, 5, 7, 5, 5] :=
  ⟨by decide, by decide,
   (c5_created_message_priority ⟨"ignore", 0, 1⟩ okSink (decodeTo priorityBatch)
      "ok" () ⟨priorityBatch⟩ (by decide) (by decide)).trans (by decide)⟩

/-- C6, as stated, fails: for a firing alert whose `severity` label is present
with the empty value, the claim gives the empty level, and `Handle` derives
`warning`. -/
theorem c6_counterexample :
    emptySeverity.Status = "firing"
    ∧ emptySeverity.Labels.lookup "severity" = some ""
    ∧ claimedLevel emptySeverity = ""
    ∧ branch "notify" emptySeverity = Branch.send "warning"
    ∧ branch "notify" emptySeverity ≠ Branch.send (claimedLevel emptySeverity) := by
  decide

/-- C6, amended: for a firing alert the level `Handle` derives is the value of
the `severity` label when that label is present and not empty, and `warning`
when it is absent or empty; for a resolved alert under policy `notify` the
level is `resolved`. -/
theorem c6_derived_level (policy : String) (a : Alert)
    (h : a.Status = "firing" ∨ (a.Status = "resolved" ∧ policy = "notify")) :
    branch policy a =
      Branch.send (if a.Status = "resolved" then "resolved" else amendedLevel a) := by
  unfold branch
  rcases h with h | ⟨h, hp⟩
  · have hne : a.Status ≠ "resolved" := by rw [h]; decide
    rw [if_neg hne, if_neg hne]
    unfold amendedLevel index
    cases hl : List.lookup "severity" a.Labels with
    | none => simp
    | some v =>
      by_cases hv : v = ""
      · simp [hv]
      · simp [hv]
  · rw [if_pos h, if_pos h, hp]
    simp

/-- The C6 instance: the firing alert of the specification, whose severity is
`critical`. -/
theorem c6_witness :
    (diskFull.Status = "firing" ∨ (diskFull.Status = "resolved" ∧ "delete" = "notify"))
    ∧ branch "delete" diskFull = Branch.send "critical" :=
  ⟨by decide, (c6_derived_level "delete" diskFull (by decide)).trans (by decide)⟩

end Am2gotify
